import Mathlib

/-!
Shallow embedding of the BattleArena tournament platform data layer
(src/contexts/DataContext.tsx, Firebase-backed provider), the Razorpay
payment success handler (src/components/PaymentDialog.tsx and the
payment helper module), and the localStorage persistence helpers
(parseDates / loadFromStorage / saveToStorage).

Modelling conventions:
- Document-database collections are lists of records; addDoc appends a
  document at the end of the collection list, updateDoc maps over the
  documents with the matching id, getDoc / find? reads.
- JavaScript numbers holding money amounts, positions and kill counts are
  modelled as Int (the code performs only integer arithmetic on them).
- Timestamps (Date.now(), Timestamp.now(), new Date()) are modelled by a
  Nat parameter called now that is threaded through each operation.
- The React state mirrors of the collections (the tournaments and
  withdrawalRequests arrays the provider keeps in component state and
  reads inside joinTournament, distributePrizes and processWithdrawal)
  are identified with the corresponding collection, as the provider
  populates them from the same collections via the fetch functions.
- Fallible operations return Except; for distributePrizes the individual
  document writes are instrumented with a failure schedule so that the
  behaviour of a write failing part-way through the loop is expressible.
-/

namespace BattleArena

/-- Tournament status union: UPCOMING, LIVE, COMPLETED, CANCELLED. -/
inductive TournamentStatus where
  | UPCOMING
  | LIVE
  | COMPLETED
  | CANCELLED
  deriving DecidableEq, Repr

/-- Transaction type union used by the data layer writes. -/
inductive TxType where
  | ENTRY_FEE
  | PRIZE
  | WITHDRAWAL
  deriving DecidableEq, Repr

/-- Withdrawal request status union: PENDING, APPROVED, REJECTED. -/
inductive WithdrawalStatus where
  | PENDING
  | APPROVED
  | REJECTED
  deriving DecidableEq, Repr

/-- Prize tier: a rank range mapped to a fixed payout amount. -/
structure PrizeTier where
  rankStart : Int
  rankEnd : Int
  prizeAmount : Int
  deriving DecidableEq, Repr

/-- A tournament document (fields as constructed by the provider). -/
structure Tournament where
  id : String
  game : String
  entryFee : Int
  maxPlayers : Nat
  winnerCount : Nat
  prizeTiers : List PrizeTier
  matchDateTime : Nat
  status : TournamentStatus
  roomId : Option String
  roomPassword : Option String
  roomReleased : Bool
  rules : String
  registeredCount : Nat
  createdAt : Nat
  deriving DecidableEq, Repr

/-- A user document in the users collection. -/
structure User where
  id : String
  email : String
  phone : String
  displayName : String
  walletBalance : Int
  winningCredits : Int
  isBanned : Bool
  isAdmin : Bool
  createdAt : Nat
  updatedAt : Nat
  deriving DecidableEq, Repr

/-- A registration document, as written by joinTournament. -/
structure RegistrationDoc where
  tournamentId : String
  userId : String
  oderId : String
  paymentId : String
  paymentStatus : String
  slotNumber : Nat
  joinedAt : Nat
  isDisqualified : Bool
  disqualificationReason : Option String
  deriving DecidableEq, Repr

/-- A transaction document, as written into the transactions collection. -/
structure TransactionDoc where
  userId : String
  type : TxType
  amount : Int
  description : String
  referenceId : String
  createdAt : Nat
  deriving DecidableEq, Repr

/-- A withdrawal request document.  The document id (generated by the
backing store on creation) is kept in the record so that processWithdrawal
can address the request; fresh ids are drawn from a counter in the store. -/
structure WithdrawalDoc where
  id : String
  oderId : String
  amount : Int
  status : WithdrawalStatus
  upiId : String
  createdAt : Nat
  processedAt : Option Nat
  processedBy : Option String
  rejectionReason : Option String
  deriving DecidableEq, Repr

/-- A match result document, as written by distributePrizes. -/
structure MatchResultDoc where
  tournamentId : String
  userId : String
  position : Int
  kills : Int
  prizeAmount : Int
  createdAt : Nat
  deriving DecidableEq, Repr

/-- The document store: the six collections used by the data layer, plus a
counter supplying fresh withdrawal document ids. -/
structure DB where
  users : List User
  tournaments : List Tournament
  registrations : List RegistrationDoc
  transactions : List TransactionDoc
  withdrawals : List WithdrawalDoc
  matchResults : List MatchResultDoc
  nextWithdrawalId : Nat
  deriving DecidableEq, Repr

/-- getDoc(doc(db, users, uid)) : first user document with the given id. -/
def getUserDoc (db : DB) (uid : String) : Option User :=
  db.users.find? (fun u => u.id == uid)

/-- The winningCredits balance of the user with the given id, when present. -/
def creditsOf (db : DB) (uid : String) : Option Int :=
  (getUserDoc db uid).map User.winningCredits

/-- tournaments.find(t looking-up tournamentId) over the cached list. -/
def findTournament (db : DB) (tournamentId : String) : Option Tournament :=
  db.tournaments.find? (fun t => t.id == tournamentId)

/-- updateDoc on a user document: set winningCredits and updatedAt. -/
def updateUserCredits (db : DB) (uid : String) (credits : Int) (now : Nat) : DB :=
  { db with users := db.users.map (fun u =>
      if u.id == uid then { u with winningCredits := credits, updatedAt := now } else u) }

/-- addDoc(collection(db, matchResults), ...). -/
def addMatchResult (db : DB) (m : MatchResultDoc) : DB :=
  { db with matchResults := db.matchResults ++ [m] }

/-- addDoc(collection(db, transactions), ...). -/
def addTransaction (db : DB) (t : TransactionDoc) : DB :=
  { db with transactions := db.transactions ++ [t] }

/-- addDoc(collection(db, registrations), ...). -/
def addRegistration (db : DB) (r : RegistrationDoc) : DB :=
  { db with registrations := db.registrations ++ [r] }

/-- addDoc(collection(db, withdrawals), ...): the new document receives the
next fresh id from the store counter. -/
def addWithdrawal (db : DB) (w : WithdrawalDoc) : DB :=
  { db with withdrawals := db.withdrawals ++ [w],
            nextWithdrawalId := db.nextWithdrawalId + 1 }

/-- updateDoc on a tournament document: set the status field. -/
def setTournamentStatus (tournamentId : String) (status : TournamentStatus) (db : DB) : DB :=
  { db with tournaments := db.tournaments.map (fun t =>
      if t.id == tournamentId then { t with status := status } else t) }

/-- updateDoc on a tournament document: set the registeredCount field. -/
def setRegisteredCount (tournamentId : String) (count : Nat) (db : DB) : DB :=
  { db with tournaments := db.tournaments.map (fun t =>
      if t.id == tournamentId then { t with registeredCount := count } else t) }

/-- The inner loop of distributePrizes: starting from prizeAmount = 0, scan
the prizeTiers list and take the prizeAmount of the first tier with
rankStart less-or-equal position less-or-equal rankEnd, breaking out of the
loop at the first hit. -/
def prizeForPosition (tiers : List PrizeTier) (position : Int) : Int :=
  match tiers with
  | [] => 0
  | tier :: rest =>
    if tier.rankStart ≤ position ∧ position ≤ tier.rankEnd then tier.prizeAmount
    else prizeForPosition rest position

/-- C2: for every position and every list of prize tiers, the prize assigned
to a player is the prizeAmount of the first tier in the list whose rank range
contains the position, and 0 when no rank range of a tier contains it. -/
theorem prizeForPosition_first_matching_tier (tiers : List PrizeTier) (p : Int) :
    prizeForPosition tiers p =
      ((tiers.find? (fun t => decide (t.rankStart ≤ p ∧ p ≤ t.rankEnd))).map
        PrizeTier.prizeAmount).getD 0 := by
  induction tiers with
  | nil => rfl
  | cons tier rest ih =>
    by_cases h : tier.rankStart ≤ p ∧ p ≤ tier.rankEnd
    · simp [prizeForPosition, List.find?, h]
    · simp [prizeForPosition, List.find?, h, ih]

/-- One row of the results list passed to distributePrizes. -/
structure ResultEntry where
  oderId : String
  displayName : String
  position : Int
  kills : Int
  deriving DecidableEq, Repr

/-- The match result document written for one results entry. -/
def mkMatchResult (now : Nat) (tournamentId : String) (r : ResultEntry) (prizeAmount : Int) :
    MatchResultDoc :=
  { tournamentId := tournamentId
    userId := r.oderId
    position := r.position
    kills := r.kills
    prizeAmount := prizeAmount
    createdAt := now }

/-- The PRIZE transaction document written for one results entry. -/
def mkPrizeTxn (now : Nat) (t : Tournament) (r : ResultEntry) (prizeAmount : Int) :
    TransactionDoc :=
  { userId := r.oderId
    type := .PRIZE
    amount := prizeAmount
    description := "Position #" ++ toString r.position ++ " prize - " ++ t.game ++ " Tournament"
    referenceId := t.id
    createdAt := now }

/-- The effect on the store of processing one results entry when every write
succeeds: write the match result; when the computed prize is positive, also
write the PRIZE transaction and, when the user document exists, update its
winningCredits to the freshly read balance plus the prize. -/
def applyResult (now : Nat) (t : Tournament) (r : ResultEntry) (db : DB) : DB :=
  let prizeAmount := prizeForPosition t.prizeTiers r.position
  let db1 := addMatchResult db (mkMatchResult now t.id r prizeAmount)
  if prizeAmount > 0 then
    let db2 := addTransaction db1 (mkPrizeTxn now t r prizeAmount)
    match getUserDoc db2 r.oderId with
    | some u => updateUserCredits db2 r.oderId (u.winningCredits + prizeAmount) now
    | none => db2
  else db1

/-- The success-path effect of the whole distributePrizes loop. -/
def applyResults (now : Nat) (t : Tournament) : List ResultEntry → DB → DB
  | [], db => db
  | r :: rest, db => applyResults now t rest (applyResult now t r db)

/-- Run state for the instrumented execution: the store together with the
number of document writes attempted so far. -/
structure RunSt where
  db : DB
  writes : Nat
  deriving DecidableEq, Repr

/-- One document write (addDoc / updateDoc).  The write fails exactly when
its global index in the call equals the failure schedule failAt; a failed
write leaves the store untouched and the surrounding code rethrows. -/
def attemptWrite (failAt : Option Nat) (f : DB → DB) (s : RunSt) : Except RunSt RunSt :=
  if failAt = some s.writes then .error s
  else .ok { db := f s.db, writes := s.writes + 1 }

/-- The body of the distributePrizes loop for one results entry, with the
individual Firebase writes instrumented by the failure schedule. -/
def processResult (failAt : Option Nat) (now : Nat) (t : Tournament) (r : ResultEntry)
    (s : RunSt) : Except RunSt RunSt :=
  let prizeAmount := prizeForPosition t.prizeTiers r.position
  match attemptWrite failAt (fun db => addMatchResult db (mkMatchResult now t.id r prizeAmount)) s with
  | .error e => .error e
  | .ok s1 =>
    if prizeAmount > 0 then
      match attemptWrite failAt (fun db => addTransaction db (mkPrizeTxn now t r prizeAmount)) s1 with
      | .error e => .error e
      | .ok s2 =>
        match getUserDoc s2.db r.oderId with
        | some u =>
          attemptWrite failAt
            (fun db => updateUserCredits db r.oderId (u.winningCredits + prizeAmount) now) s2
        | none => .ok s2
    else .ok s1

/-- The for-of loop of distributePrizes over the results list. -/
def distributeLoop (failAt : Option Nat) (now : Nat) (t : Tournament) :
    List ResultEntry → RunSt → Except RunSt RunSt
  | [], s => .ok s
  | r :: rest, s =>
    match processResult failAt now t r s with
    | .error e => .error e
    | .ok s1 => distributeLoop failAt now t rest s1

/-- distributePrizes (Firebase-backed provider): look the tournament up in
the cached list and return silently when absent; otherwise run the per-entry
loop and finally mark the tournament COMPLETED.  An error thrown by a write
propagates out of the call (the catch block rethrows), leaving the store as
accumulated so far. -/
def distributePrizes (failAt : Option Nat) (now : Nat) (db : DB) (tournamentId : String)
    (results : List ResultEntry) : Except DB DB :=
  match findTournament db tournamentId with
  | none => .ok db
  | some t =>
    match distributeLoop failAt now t results { db := db, writes := 0 } with
    | .error s => .error s.db
    | .ok s =>
      match attemptWrite failAt (setTournamentStatus tournamentId .COMPLETED) s with
      | .error s2 => .error s2.db
      | .ok s2 => .ok s2.db

/-- Number of writes performed while processing one results entry. -/
def entryWriteCount (t : Tournament) (r : ResultEntry) (db : DB) : Nat :=
  if prizeForPosition t.prizeTiers r.position > 0 then
    if (getUserDoc db r.oderId).isSome then 3 else 2
  else 1

/-- Number of writes performed while processing a results list. -/
def writeCount (now : Nat) (t : Tournament) : List ResultEntry → DB → Nat
  | [], _ => 0
  | r :: rest, db => entryWriteCount t r db + writeCount now t rest (applyResult now t r db)

/-- Total prize paid out to a given user id by a results list: the sum of
the computed prizes of the entries for that user whose prize is positive
(the code performs a credit update only for positive prizes). -/
def prizeSum (t : Tournament) (results : List ResultEntry) (uid : String) : Int :=
  ((results.filter (fun r =>
      r.oderId == uid && decide (prizeForPosition t.prizeTiers r.position > 0))).map
    (fun r => prizeForPosition t.prizeTiers r.position)).sum

/-! Frame lemmas for the store operations. -/

theorem getUserDoc_addMatchResult (db : DB) (m : MatchResultDoc) (uid : String) :
    getUserDoc (addMatchResult db m) uid = getUserDoc db uid := rfl

theorem getUserDoc_addTransaction (db : DB) (t : TransactionDoc) (uid : String) :
    getUserDoc (addTransaction db t) uid = getUserDoc db uid := rfl

theorem find?_map_id_preserving (f : User → User) (hf : ∀ u, (f u).id = u.id)
    (l : List User) (uid : String) :
    (l.map f).find? (fun u => u.id == uid) = (l.find? (fun u => u.id == uid)).map f := by
  induction l with
  | nil => rfl
  | cons u l ih =>
    simp only [List.map_cons, List.find?, hf u]
    cases hu : (u.id == uid) with
    | true => simp
    | false => simpa using ih

theorem getUserDoc_updateUserCredits (db : DB) (x : String) (c : Int) (now : Nat)
    (uid : String) :
    getUserDoc (updateUserCredits db x c now) uid =
      (getUserDoc db uid).map (fun u =>
        if u.id == x then { u with winningCredits := c, updatedAt := now } else u) := by
  unfold getUserDoc updateUserCredits
  exact find?_map_id_preserving _ (fun u => by by_cases h : (u.id == x) = true <;> simp [h]) _ _

theorem creditsOf_updateUserCredits (db : DB) (x : String) (c : Int) (now : Nat)
    (uid : String) :
    creditsOf (updateUserCredits db x c now) uid =
      if x = uid then (creditsOf db uid).map (fun _ => c) else creditsOf db uid := by
  unfold creditsOf
  rw [getUserDoc_updateUserCredits]
  cases hu : getUserDoc db uid with
  | none => simp
  | some u =>
    have hid : u.id = uid := by
      have := List.find?_some hu
      simpa using this
    by_cases hx : x = uid
    · subst hx
      simp [hid]
    · have hne : ¬ u.id = x := by
        rw [hid]
        exact fun h => hx h.symm
      simp [hne, hx]

/-! Per-entry and whole-loop characterisation of the success path. -/

theorem attemptWrite_ne (failAt : Option Nat) (f : DB → DB) (s : RunSt)
    (h : failAt ≠ some s.writes) :
    attemptWrite failAt f s = .ok { db := f s.db, writes := s.writes + 1 } := by
  simp [attemptWrite, h]

theorem attemptWrite_fail (f : DB → DB) (s : RunSt) :
    attemptWrite (some s.writes) f s = .error s := by
  simp [attemptWrite]

theorem processResult_ok (failAt : Option Nat) (now : Nat) (t : Tournament) (r : ResultEntry)
    (s : RunSt) (h : ∀ k, failAt = some k → s.writes + entryWriteCount t r s.db ≤ k) :
    processResult failAt now t r s =
      .ok { db := applyResult now t r s.db, writes := s.writes + entryWriteCount t r s.db } := by
  obtain ⟨d, w⟩ := s
  simp only at h ⊢
  by_cases hp : prizeForPosition t.prizeTiers r.position > 0
  · cases hu : getUserDoc d r.oderId with
    | some u =>
      have hcnt : entryWriteCount t r d = 3 := by
        simp [entryWriteCount, hp, hu]
      rw [hcnt] at h
      have h1 : ¬ failAt = some w := fun hk => by have := h _ hk; omega
      have h2 : ¬ failAt = some (w + 1) := fun hk => by have := h _ hk; omega
      have h3 : ¬ failAt = some (w + 1 + 1) := fun hk => by have := h _ hk; omega
      simp only [processResult, attemptWrite, applyResult, hcnt, hp, if_pos, if_neg, h1, h2,
        h3, ite_false, getUserDoc_addTransaction, getUserDoc_addMatchResult, hu]
    | none =>
      have hcnt : entryWriteCount t r d = 2 := by
        simp [entryWriteCount, hp, hu]
      rw [hcnt] at h
      have h1 : ¬ failAt = some w := fun hk => by have := h _ hk; omega
      have h2 : ¬ failAt = some (w + 1) := fun hk => by have := h _ hk; omega
      simp only [processResult, attemptWrite, applyResult, hcnt, hp, if_pos, if_neg, h1, h2,
        ite_false, getUserDoc_addTransaction, getUserDoc_addMatchResult, hu]
  · have hcnt : entryWriteCount t r d = 1 := by
      simp [entryWriteCount, hp]
    rw [hcnt] at h
    have h1 : ¬ failAt = some w := fun hk => by have := h _ hk; omega
    simp only [processResult, attemptWrite, applyResult, hcnt, hp, if_neg, h1, ite_false]

theorem distributeLoop_ok (failAt : Option Nat) (now : Nat) (t : Tournament) :
    ∀ (rs : List ResultEntry) (s : RunSt),
      (∀ k, failAt = some k → s.writes + writeCount now t rs s.db ≤ k) →
      distributeLoop failAt now t rs s =
        .ok { db := applyResults now t rs s.db, writes := s.writes + writeCount now t rs s.db } := by
  intro rs
  induction rs with
  | nil =>
    intro s _
    simp [distributeLoop, applyResults, writeCount]
  | cons r rest ih =>
    intro s h
    have hcons : writeCount now t (r :: rest) s.db =
        entryWriteCount t r s.db + writeCount now t rest (applyResult now t r s.db) := rfl
    rw [distributeLoop, processResult_ok failAt now t r s (by
      intro k hk
      have hh := h k hk
      rw [hcons] at hh
      omega)]
    dsimp only
    rw [ih { db := applyResult now t r s.db, writes := s.writes + entryWriteCount t r s.db } (by
      intro k hk
      have hh := h k hk
      rw [hcons] at hh
      simp only
      omega)]
    dsimp only
    rw [hcons, Nat.add_assoc]
    rfl

theorem processResult_fail_first (now : Nat) (t : Tournament) (r : ResultEntry) (s : RunSt) :
    processResult (some s.writes) now t r s = .error s := by
  obtain ⟨d, w⟩ := s
  simp [processResult, attemptWrite]

theorem distributeLoop_fail_at_entry (now : Nat) (t : Tournament)
    (prefixEntries : List ResultEntry) (r : ResultEntry) (rest : List ResultEntry) (db : DB) :
    distributeLoop (some (writeCount now t prefixEntries db)) now t
        (prefixEntries ++ r :: rest) { db := db, writes := 0 } =
      .error { db := applyResults now t prefixEntries db,
               writes := writeCount now t prefixEntries db } := by
  have happend : ∀ (a b : List ResultEntry) (failAt : Option Nat) (s : RunSt),
      distributeLoop failAt now t (a ++ b) s =
        match distributeLoop failAt now t a s with
        | .error e => .error e
        | .ok s1 => distributeLoop failAt now t b s1 := by
    intro a
    induction a with
    | nil => intro b failAt s; rfl
    | cons x xs ih =>
      intro b failAt s
      rw [List.cons_append, distributeLoop, distributeLoop]
      cases processResult failAt now t x s with
      | error e => rfl
      | ok s1 => exact ih b failAt s1
  rw [happend]
  rw [distributeLoop_ok (some (writeCount now t prefixEntries db)) now t prefixEntries
    { db := db, writes := 0 } (by
      intro k hk
      injection hk with h2
      subst h2
      simp)]
  dsimp only
  rw [Nat.zero_add]
  have hfail := processResult_fail_first now t r
    { db := applyResults now t prefixEntries db, writes := writeCount now t prefixEntries db }
  simp only at hfail
  rw [distributeLoop, hfail]

/-! Effect of the success path on each collection. -/

theorem applyResult_matchResults (now : Nat) (t : Tournament) (r : ResultEntry) (db : DB) :
    (applyResult now t r db).matchResults =
      db.matchResults ++ [mkMatchResult now t.id r (prizeForPosition t.prizeTiers r.position)] := by
  simp only [applyResult]
  by_cases hp : prizeForPosition t.prizeTiers r.position > 0
  · simp only [hp, ite_true]
    rw [show getUserDoc (addTransaction (addMatchResult db
        (mkMatchResult now t.id r (prizeForPosition t.prizeTiers r.position)))
        (mkPrizeTxn now t r (prizeForPosition t.prizeTiers r.position))) r.oderId
        = getUserDoc db r.oderId from rfl]
    cases getUserDoc db r.oderId with
    | some u => rfl
    | none => rfl
  · simp only [hp, ite_false]
    rfl

theorem applyResult_transactions (now : Nat) (t : Tournament) (r : ResultEntry) (db : DB) :
    (applyResult now t r db).transactions =
      if prizeForPosition t.prizeTiers r.position > 0 then
        db.transactions ++ [mkPrizeTxn now t r (prizeForPosition t.prizeTiers r.position)]
      else db.transactions := by
  simp only [applyResult]
  by_cases hp : prizeForPosition t.prizeTiers r.position > 0
  · simp only [hp, ite_true]
    rw [show getUserDoc (addTransaction (addMatchResult db
        (mkMatchResult now t.id r (prizeForPosition t.prizeTiers r.position)))
        (mkPrizeTxn now t r (prizeForPosition t.prizeTiers r.position))) r.oderId
        = getUserDoc db r.oderId from rfl]
    cases getUserDoc db r.oderId with
    | some u => rfl
    | none => rfl
  · simp only [hp, ite_false]
    rfl

theorem applyResult_frame (now : Nat) (t : Tournament) (r : ResultEntry) (db : DB) :
    (applyResult now t r db).tournaments = db.tournaments ∧
    (applyResult now t r db).registrations = db.registrations ∧
    (applyResult now t r db).withdrawals = db.withdrawals ∧
    (applyResult now t r db).nextWithdrawalId = db.nextWithdrawalId := by
  simp only [applyResult]
  by_cases hp : prizeForPosition t.prizeTiers r.position > 0
  · simp only [hp, ite_true]
    rw [show getUserDoc (addTransaction (addMatchResult db
        (mkMatchResult now t.id r (prizeForPosition t.prizeTiers r.position)))
        (mkPrizeTxn now t r (prizeForPosition t.prizeTiers r.position))) r.oderId
        = getUserDoc db r.oderId from rfl]
    cases getUserDoc db r.oderId with
    | some u => exact ⟨rfl, rfl, rfl, rfl⟩
    | none => exact ⟨rfl, rfl, rfl, rfl⟩
  · simp only [hp, ite_false]
    exact ⟨rfl, rfl, rfl, rfl⟩

theorem applyResult_credits (now : Nat) (t : Tournament) (r : ResultEntry) (db : DB)
    (uid : String) :
    creditsOf (applyResult now t r db) uid =
      if r.oderId = uid ∧ prizeForPosition t.prizeTiers r.position > 0 then
        (creditsOf db uid).map (fun c => c + prizeForPosition t.prizeTiers r.position)
      else creditsOf db uid := by
  simp only [applyResult]
  by_cases hp : prizeForPosition t.prizeTiers r.position > 0
  · simp only [hp, ite_true, and_true]
    rw [show getUserDoc (addTransaction (addMatchResult db
        (mkMatchResult now t.id r (prizeForPosition t.prizeTiers r.position)))
        (mkPrizeTxn now t r (prizeForPosition t.prizeTiers r.position))) r.oderId
        = getUserDoc db r.oderId from rfl]
    cases hu : getUserDoc db r.oderId with
    | some u =>
      rw [show creditsOf (updateUserCredits (addTransaction (addMatchResult db
          (mkMatchResult now t.id r (prizeForPosition t.prizeTiers r.position)))
          (mkPrizeTxn now t r (prizeForPosition t.prizeTiers r.position))) r.oderId
          (u.winningCredits + prizeForPosition t.prizeTiers r.position) now) uid =
        creditsOf (updateUserCredits db r.oderId
          (u.winningCredits + prizeForPosition t.prizeTiers r.position) now) uid from rfl]
      rw [creditsOf_updateUserCredits]
      by_cases hxy : r.oderId = uid
      · have hcred : creditsOf db uid = some u.winningCredits := by
          unfold creditsOf
          rw [← hxy, hu]
          rfl
        simp [hxy, hcred]
      · simp [hxy]
    | none =>
      rw [show creditsOf (addTransaction (addMatchResult db
          (mkMatchResult now t.id r (prizeForPosition t.prizeTiers r.position)))
          (mkPrizeTxn now t r (prizeForPosition t.prizeTiers r.position))) uid =
        creditsOf db uid from rfl]
      by_cases hxy : r.oderId = uid
      · have hcred : creditsOf db uid = none := by
          unfold creditsOf
          rw [← hxy, hu]
          rfl
        simp [hxy, hcred]
      · simp [hxy]
  · simp only [hp, and_false, ite_false]
    rfl

theorem applyResults_matchResults (now : Nat) (t : Tournament) :
    ∀ (rs : List ResultEntry) (db : DB),
      (applyResults now t rs db).matchResults =
        db.matchResults ++ rs.map (fun r =>
          mkMatchResult now t.id r (prizeForPosition t.prizeTiers r.position)) := by
  intro rs
  induction rs with
  | nil => intro db; simp [applyResults]
  | cons r rest ih =>
    intro db
    rw [applyResults, ih, applyResult_matchResults, List.map_cons, List.append_assoc]
    rfl

theorem applyResults_transactions (now : Nat) (t : Tournament) :
    ∀ (rs : List ResultEntry) (db : DB),
      (applyResults now t rs db).transactions =
        db.transactions ++ (rs.filter (fun r =>
          decide (prizeForPosition t.prizeTiers r.position > 0))).map (fun r =>
            mkPrizeTxn now t r (prizeForPosition t.prizeTiers r.position)) := by
  intro rs
  induction rs with
  | nil => intro db; simp [applyResults]
  | cons r rest ih =>
    intro db
    rw [applyResults, ih, applyResult_transactions]
    by_cases hp : prizeForPosition t.prizeTiers r.position > 0
    · rw [if_pos hp, List.filter_cons_of_pos (by simpa using hp), List.map_cons,
        List.append_assoc]
      rfl
    · rw [if_neg hp, List.filter_cons_of_neg (by simpa using hp)]

theorem applyResults_frame (now : Nat) (t : Tournament) :
    ∀ (rs : List ResultEntry) (db : DB),
      (applyResults now t rs db).tournaments = db.tournaments ∧
      (applyResults now t rs db).registrations = db.registrations ∧
      (applyResults now t rs db).withdrawals = db.withdrawals ∧
      (applyResults now t rs db).nextWithdrawalId = db.nextWithdrawalId := by
  intro rs
  induction rs with
  | nil => intro db; exact ⟨rfl, rfl, rfl, rfl⟩
  | cons r rest ih =>
    intro db
    obtain ⟨h1, h2, h3, h4⟩ := ih (applyResult now t r db)
    obtain ⟨g1, g2, g3, g4⟩ := applyResult_frame now t r db
    rw [applyResults]
    exact ⟨h1.trans g1, h2.trans g2, h3.trans g3, h4.trans g4⟩

theorem applyResults_credits (now : Nat) (t : Tournament) (uid : String) :
    ∀ (rs : List ResultEntry) (db : DB),
      creditsOf (applyResults now t rs db) uid =
        (creditsOf db uid).map (fun c => c + prizeSum t rs uid) := by
  intro rs
  induction rs with
  | nil =>
    intro db
    rw [applyResults]
    cases creditsOf db uid <;> simp [prizeSum]
  | cons r rest ih =>
    intro db
    rw [applyResults, ih, applyResult_credits]
    by_cases hc : r.oderId = uid ∧ prizeForPosition t.prizeTiers r.position > 0
    · have hfilter : (r.oderId == uid &&
          decide (prizeForPosition t.prizeTiers r.position > 0)) = true := by
        simp [hc.1, hc.2]
      rw [if_pos hc, Option.map_map]
      rw [show prizeSum t (r :: rest) uid =
          prizeForPosition t.prizeTiers r.position + prizeSum t rest uid by
        unfold prizeSum
        simp [List.filter_cons, hfilter]]
      congr 1
      funext c
      simp only [Function.comp]
      ring
    · have hfilter : (r.oderId == uid &&
          decide (prizeForPosition t.prizeTiers r.position > 0)) = false := by
        by_cases h1 : r.oderId = uid
        · have h2 : ¬ prizeForPosition t.prizeTiers r.position > 0 := fun h => hc ⟨h1, h⟩
          simp [h1, h2]
        · simp [h1]
      rw [if_neg hc]
      rw [show prizeSum t (r :: rest) uid = prizeSum t rest uid by
        unfold prizeSum
        simp [List.filter_cons, hfilter]]

/-- C1: for every tournament found by id, running distributePrizes with no
write failing appends, for every entry of the results list in list order, a
match result document carrying that entry position, kills and computed prize;
appends, for exactly the entries whose computed prize is positive, a PRIZE
transaction whose amount is the prize; adds to each existing user the total
of the positive prizes of that user entries (each entry adding exactly its
prize to the freshly read balance); and finally sets the status of the
tournament with that id to COMPLETED. -/
theorem distributePrizes_success_spec (now : Nat) (db : DB) (tournamentId : String)
    (results : List ResultEntry) (t : Tournament)
    (hfind : findTournament db tournamentId = some t) :
    ∃ db', distributePrizes none now db tournamentId results = .ok db' ∧
      db'.matchResults = db.matchResults ++ results.map (fun r =>
        mkMatchResult now t.id r (prizeForPosition t.prizeTiers r.position)) ∧
      db'.transactions = db.transactions ++ (results.filter (fun r =>
        decide (prizeForPosition t.prizeTiers r.position > 0))).map (fun r =>
          mkPrizeTxn now t r (prizeForPosition t.prizeTiers r.position)) ∧
      (∀ uid, creditsOf db' uid = (creditsOf db uid).map (fun c => c + prizeSum t results uid)) ∧
      db'.tournaments = db.tournaments.map (fun x =>
        if x.id == tournamentId then { x with status := .COMPLETED } else x) := by
  have hrun : distributePrizes none now db tournamentId results =
      .ok (setTournamentStatus tournamentId .COMPLETED (applyResults now t results db)) := by
    unfold distributePrizes
    rw [hfind]
    dsimp only
    rw [distributeLoop_ok none now t results { db := db, writes := 0 }
      (fun k hk => Option.noConfusion hk)]
    dsimp only
    rw [attemptWrite_ne none _ _ (fun hk => Option.noConfusion hk)]
  refine ⟨setTournamentStatus tournamentId .COMPLETED (applyResults now t results db),
    hrun, ?_, ?_, ?_, ?_⟩
  · rw [show (setTournamentStatus tournamentId .COMPLETED
        (applyResults now t results db)).matchResults =
      (applyResults now t results db).matchResults from rfl]
    exact applyResults_matchResults now t results db
  · rw [show (setTournamentStatus tournamentId .COMPLETED
        (applyResults now t results db)).transactions =
      (applyResults now t results db).transactions from rfl]
    exact applyResults_transactions now t results db
  · intro uid
    rw [show creditsOf (setTournamentStatus tournamentId .COMPLETED
        (applyResults now t results db)) uid =
      creditsOf (applyResults now t results db) uid from rfl]
    exact applyResults_credits now t uid results db
  · rw [show (setTournamentStatus tournamentId .COMPLETED
        (applyResults now t results db)).tournaments =
      (applyResults now t results db).tournaments.map (fun x =>
        if x.id == tournamentId then { x with status := .COMPLETED } else x) from rfl]
    rw [(applyResults_frame now t results db).1]

/-- A sample user document for concrete witnesses. -/
def sampleUser : User :=
  { id := "u1", email := "", phone := "", displayName := "P1", walletBalance := 0,
    winningCredits := 7, isBanned := false, isAdmin := false, createdAt := 0, updatedAt := 0 }

/-- A sample tournament with a single prize tier for concrete witnesses. -/
def sampleTournament : Tournament :=
  { id := "t1", game := "BGMI", entryFee := 25, maxPlayers := 100, winnerCount := 80,
    prizeTiers := [{ rankStart := 1, rankEnd := 5, prizeAmount := 50 }],
    matchDateTime := 0, status := .UPCOMING, roomId := none, roomPassword := none,
    roomReleased := false, rules := "", registeredCount := 0, createdAt := 0 }

/-- A sample store holding the sample user and tournament. -/
def sampleDB : DB :=
  { users := [sampleUser], tournaments := [sampleTournament], registrations := [],
    transactions := [], withdrawals := [], matchResults := [], nextWithdrawalId := 0 }

/-- A sample results list: the sample user placed first with four kills. -/
def sampleResults : List ResultEntry :=
  [{ oderId := "u1", displayName := "P1", position := 1, kills := 4 }]

/-- Witness for C1 at the concrete sample store. -/
theorem distributePrizes_success_spec_witness :
    findTournament sampleDB "t1" = some sampleTournament ∧
    (∃ db', distributePrizes none 0 sampleDB "t1" sampleResults = .ok db' ∧
      db'.matchResults = sampleDB.matchResults ++ sampleResults.map (fun r =>
        mkMatchResult 0 sampleTournament.id r
          (prizeForPosition sampleTournament.prizeTiers r.position)) ∧
      db'.transactions = sampleDB.transactions ++ (sampleResults.filter (fun r =>
        decide (prizeForPosition sampleTournament.prizeTiers r.position > 0))).map (fun r =>
          mkPrizeTxn 0 sampleTournament r
            (prizeForPosition sampleTournament.prizeTiers r.position)) ∧
      (∀ uid, creditsOf db' uid = (creditsOf sampleDB uid).map (fun c =>
        c + prizeSum sampleTournament sampleResults uid)) ∧
      db'.tournaments = sampleDB.tournaments.map (fun x =>
        if x.id == "t1" then { x with status := .COMPLETED } else x)) :=
  ⟨by decide, distributePrizes_success_spec 0 sampleDB "t1" sampleResults sampleTournament
    (by decide)⟩

/-- C3: distributePrizes is not atomic.  When the write that opens the
processing of entry number i fails, the call throws, and the store it leaves
behind is exactly the store produced by fully processing the first i entries:
their match results, transactions and winningCredits updates remain applied,
no rollback happens, and (for i positive) the resulting store differs from
the store before the call. -/
theorem distributePrizes_partial_failure (now : Nat) (db : DB) (tournamentId : String)
    (results : List ResultEntry) (t : Tournament) (i : Nat)
    (hfind : findTournament db tournamentId = some t)
    (hi : i < results.length) (hpos : 0 < i) :
    distributePrizes (some (writeCount now t (results.take i) db)) now db tournamentId results
      = .error (applyResults now t (results.take i) db) ∧
    (applyResults now t (results.take i) db).matchResults.length
      = db.matchResults.length + i ∧
    applyResults now t (results.take i) db ≠ db := by
  have hdrop : results.drop i = results[i] :: results.drop (i + 1) :=
    List.drop_eq_getElem_cons hi
  have hres : results = results.take i ++ results[i] :: results.drop (i + 1) := by
    rw [← hdrop]
    exact (List.take_append_drop i results).symm
  have hlen : (results.take i).length = i := by
    rw [List.length_take]
    omega
  have hloop := distributeLoop_fail_at_entry now t (results.take i) (results[i])
    (results.drop (i + 1)) db
  rw [← hres] at hloop
  have hrun : distributePrizes (some (writeCount now t (results.take i) db)) now db
      tournamentId results = .error (applyResults now t (results.take i) db) := by
    unfold distributePrizes
    rw [hfind]
    dsimp only
    rw [hloop]
  refine ⟨hrun, ?_, ?_⟩
  · rw [applyResults_matchResults, List.length_append, List.length_map, hlen]
  · intro heq
    have hlen2 := congrArg (fun d => d.matchResults.length) heq
    simp only at hlen2
    rw [applyResults_matchResults, List.length_append, List.length_map, hlen] at hlen2
    omega

/-- A two-entry results list for the partial-failure witness. -/
def sampleResultsTwo : List ResultEntry :=
  [{ oderId := "u1", displayName := "P1", position := 1, kills := 4 },
   { oderId := "u2", displayName := "P2", position := 2, kills := 1 }]

/-- Witness for C3: with two results entries, failing the first write of the
second entry leaves the first entry fully applied and no rollback. -/
theorem distributePrizes_partial_failure_witness :
    findTournament sampleDB "t1" = some sampleTournament ∧
    ((1 : Nat) < sampleResultsTwo.length ∧ (0 : Nat) < 1) ∧
    (distributePrizes
        (some (writeCount 0 sampleTournament (sampleResultsTwo.take 1) sampleDB)) 0 sampleDB
        "t1" sampleResultsTwo
      = .error (applyResults 0 sampleTournament (sampleResultsTwo.take 1) sampleDB) ∧
    (applyResults 0 sampleTournament (sampleResultsTwo.take 1) sampleDB).matchResults.length
      = sampleDB.matchResults.length + 1 ∧
    applyResults 0 sampleTournament (sampleResultsTwo.take 1) sampleDB ≠ sampleDB) :=
  ⟨by decide, ⟨by decide, by decide⟩,
    distributePrizes_partial_failure 0 sampleDB "t1" sampleResultsTwo sampleTournament 1
      (by decide) (by decide) (by decide)⟩

/-- Success projection of a distributePrizes run. -/
def okStore (e : Except DB DB) : Option DB :=
  match e with
  | .ok db => some db
  | .error _ => none

/-- C4: distributePrizes has no idempotency guarantee.  On a concrete store
whose single results entry falls in a tier paying 50, running the call twice
with the same arguments moves the player balance from 7 to 107 (twice the
prize amount) and records the PRIZE transaction and the match result twice. -/
theorem distributePrizes_not_idempotent :
    prizeForPosition sampleTournament.prizeTiers 1 = 50 ∧
    creditsOf sampleDB "u1" = some 7 ∧
    ((okStore (distributePrizes none 0 sampleDB "t1" sampleResults)).bind (fun db1 =>
        okStore (distributePrizes none 0 db1 "t1" sampleResults))).map (fun db2 =>
          (creditsOf db2 "u1",
           (db2.transactions.filter (fun tx =>
             tx.userId == "u1" && tx.type == TxType.PRIZE)).length,
           (db2.matchResults.filter (fun m => m.userId == "u1")).length))
      = some (some 107, 2, 2) := by
  decide

/-- joinTournament (Firebase-backed provider): throw when the tournament id
is unknown; otherwise write the registration document, write the ENTRY_FEE
transaction, set the tournament registeredCount to slotNumber, and return
slotNumber and paymentId.  No comparison with maxPlayers occurs anywhere. -/
def joinTournament (now : Nat) (db : DB) (tournamentId oderId : String)
    (paymentIdInput : Option String) : Except String (DB × Nat × String) :=
  match findTournament db tournamentId with
  | none => .error ("Tournament not found")
  | some tournament =>
    let slotNumber := tournament.registeredCount + 1
    let paymentId := paymentIdInput.getD ("pay_" ++ toString now)
    let db1 := addRegistration db
      { tournamentId := tournamentId, userId := oderId, oderId := oderId,
        paymentId := paymentId, paymentStatus := "COMPLETED", slotNumber := slotNumber,
        joinedAt := now, isDisqualified := false, disqualificationReason := none }
    let db2 := addTransaction db1
      { userId := oderId, type := .ENTRY_FEE, amount := -tournament.entryFee,
        description := "Entry fee for " ++ tournament.game ++ " Tournament",
        referenceId := tournamentId, createdAt := now }
    let db3 := setRegisteredCount tournamentId slotNumber db2
    .ok (db3, slotNumber, paymentId)

/-- C5: the data layer never checks registeredCount against maxPlayers: for
every tournament found by id, whatever its registeredCount (in particular
when it already equals maxPlayers), joinTournament succeeds, returns
slotNumber = registeredCount + 1 and sets the tournament registeredCount to
registeredCount + 1. -/
theorem joinTournament_no_capacity_check (now : Nat) (db : DB)
    (tournamentId oderId : String) (paymentIdInput : Option String) (t : Tournament)
    (hfind : findTournament db tournamentId = some t) :
    ∃ db', joinTournament now db tournamentId oderId paymentIdInput
        = .ok (db', t.registeredCount + 1, paymentIdInput.getD ("pay_" ++ toString now)) ∧
      db'.tournaments = db.tournaments.map (fun x =>
        if x.id == tournamentId then { x with registeredCount := t.registeredCount + 1 }
        else x) ∧
      db'.users = db.users ∧
      db'.registrations = db.registrations ++
        [{ tournamentId := tournamentId, userId := oderId, oderId := oderId,
           paymentId := paymentIdInput.getD ("pay_" ++ toString now),
           paymentStatus := "COMPLETED", slotNumber := t.registeredCount + 1,
           joinedAt := now, isDisqualified := false, disqualificationReason := none }] ∧
      db'.transactions = db.transactions ++
        [{ userId := oderId, type := .ENTRY_FEE, amount := -t.entryFee,
           description := "Entry fee for " ++ t.game ++ " Tournament",
           referenceId := tournamentId, createdAt := now }] := by
  unfold joinTournament
  rw [hfind]
  dsimp only
  exact ⟨_, rfl, rfl, rfl, rfl, rfl⟩

/-- A tournament that is already full: registeredCount equals maxPlayers. -/
def fullTournament : Tournament :=
  { id := "t2", game := "BGMI", entryFee := 25, maxPlayers := 2, winnerCount := 1,
    prizeTiers := [{ rankStart := 1, rankEnd := 1, prizeAmount := 40 }],
    matchDateTime := 0, status := .UPCOMING, roomId := none, roomPassword := none,
    roomReleased := false, rules := "", registeredCount := 2, createdAt := 0 }

/-- A store holding the full tournament. -/
def fullDB : DB :=
  { users := [sampleUser], tournaments := [fullTournament], registrations := [],
    transactions := [], withdrawals := [], matchResults := [], nextWithdrawalId := 0 }

/-- Witness for C5 at a tournament whose registeredCount already equals its
maxPlayers: the join still succeeds and pushes the count past capacity. -/
theorem joinTournament_no_capacity_check_witness :
    fullTournament.registeredCount = fullTournament.maxPlayers ∧
    findTournament fullDB "t2" = some fullTournament ∧
    (∃ db', joinTournament 0 fullDB "t2" "u1" none
        = .ok (db', fullTournament.registeredCount + 1,
               (none : Option String).getD ("pay_" ++ toString 0)) ∧
      db'.tournaments = fullDB.tournaments.map (fun x =>
        if x.id == "t2" then { x with registeredCount := fullTournament.registeredCount + 1 }
        else x) ∧
      db'.users = fullDB.users ∧
      db'.registrations = fullDB.registrations ++
        [{ tournamentId := "t2", userId := "u1", oderId := "u1",
           paymentId := (none : Option String).getD ("pay_" ++ toString 0),
           paymentStatus := "COMPLETED", slotNumber := fullTournament.registeredCount + 1,
           joinedAt := 0, isDisqualified := false, disqualificationReason := none }] ∧
      db'.transactions = fullDB.transactions ++
        [{ userId := "u1", type := .ENTRY_FEE, amount := -fullTournament.entryFee,
           description := "Entry fee for " ++ fullTournament.game ++ " Tournament",
           referenceId := "t2", createdAt := 0 }]) :=
  ⟨by decide, by decide,
    joinTournament_no_capacity_check 0 fullDB "t2" "u1" none fullTournament (by decide)⟩

/-- requestWithdrawal (Firebase-backed provider): read the user document,
throw when it is missing, throw when winningCredits is below the requested
amount, otherwise create the PENDING withdrawal document.  The balance is
not modified.  An error result carries the untouched store, as the thrown
exception happens before any write. -/
def requestWithdrawal (now : Nat) (db : DB) (oderId : String) (amount : Int)
    (upiId : String) : Except (String × DB) DB :=
  match getUserDoc db oderId with
  | none => .error ("User not found", db)
  | some u =>
    if u.winningCredits < amount then .error ("Insufficient winning credits", db)
    else .ok (addWithdrawal db
      { id := "wd_" ++ toString db.nextWithdrawalId, oderId := oderId, amount := amount,
        status := .PENDING, upiId := upiId, createdAt := now, processedAt := none,
        processedBy := none, rejectionReason := none })

/-- C6: the withdrawal amount bound is enforced only by this client-side
check: with the user found, requestWithdrawal throws the Insufficient
winning credits error and creates nothing when the current winningCredits is
below the requested amount, and otherwise creates one PENDING withdrawal
request and leaves the user balance (and everything else) unchanged. -/
theorem requestWithdrawal_client_side_check (now : Nat) (db : DB) (oderId : String)
    (amount : Int) (upiId : String) (u : User)
    (hu : getUserDoc db oderId = some u) :
    (u.winningCredits < amount →
      requestWithdrawal now db oderId amount upiId
        = .error ("Insufficient winning credits", db)) ∧
    (amount ≤ u.winningCredits →
      requestWithdrawal now db oderId amount upiId
        = .ok { db with
            withdrawals := db.withdrawals ++
              [{ id := "wd_" ++ toString db.nextWithdrawalId, oderId := oderId,
                 amount := amount, status := .PENDING, upiId := upiId, createdAt := now,
                 processedAt := none, processedBy := none, rejectionReason := none }],
            nextWithdrawalId := db.nextWithdrawalId + 1 }) := by
  unfold requestWithdrawal
  rw [hu]
  dsimp only
  constructor
  · intro h
    rw [if_pos h]
  · intro h
    rw [if_neg (not_lt.mpr h)]
    rfl

/-- Witness for C6: the sample user holds 7 winning credits, so a request
for 100 hits the insufficient-credits branch. -/
theorem requestWithdrawal_client_side_check_witness :
    getUserDoc sampleDB "u1" = some sampleUser ∧
    ((sampleUser.winningCredits < 100 →
      requestWithdrawal 0 sampleDB "u1" 100 "p@upi"
        = .error ("Insufficient winning credits", sampleDB)) ∧
    (100 ≤ sampleUser.winningCredits →
      requestWithdrawal 0 sampleDB "u1" 100 "p@upi"
        = .ok { sampleDB with
            withdrawals := sampleDB.withdrawals ++
              [{ id := "wd_" ++ toString sampleDB.nextWithdrawalId, oderId := "u1",
                 amount := 100, status := .PENDING, upiId := "p@upi", createdAt := 0,
                 processedAt := none, processedBy := none, rejectionReason := none }],
            nextWithdrawalId := sampleDB.nextWithdrawalId + 1 })) :=
  ⟨by decide, requestWithdrawal_client_side_check 0 sampleDB "u1" 100 "p@upi" sampleUser
    (by decide)⟩

/-- The checkout response delivered to the success handler of the payment
widget: a payment id, an optional order id and an optional signature. -/
structure RazorpayResponse where
  razorpay_payment_id : String
  razorpay_order_id : Option String
  razorpay_signature : Option String
  deriving DecidableEq, Repr

/-- The handler of a successful checkout (PaymentDialog.handleRazorpayPayment
and, identically, the initiateRazorpayPayment helper): it invokes the success
continuation with the reported payment id, the reported order id (or a
generated one), and the method string; the result models the argument triple
handed to the continuation.  No field of the response other than the payment
id and the order id is read. -/
def paymentSuccessArgs (now : Nat) (response : RazorpayResponse) :
    String × String × String :=
  (response.razorpay_payment_id,
   response.razorpay_order_id.getD ("order_" ++ toString now),
   "razorpay")

/-- C7: no signature verification happens on payment completion: two checkout
responses that differ only in the razorpay_signature field (including one
carrying no signature at all) are handed to the success continuation with
exactly the same arguments, hence produce the same registration outcome. -/
theorem paymentHandler_ignores_signature (now : Nat) (response : RazorpayResponse)
    (sig : Option String) :
    paymentSuccessArgs now { response with razorpay_signature := sig }
      = paymentSuccessArgs now response := rfl

/-- JavaScript value-or-null coalescing for optional strings: undefined and
the empty string are falsy and collapse to null. -/
def orNull (s : Option String) : Option String :=
  match s with
  | some v => if v == "" then none else some v
  | none => none

/-- processWithdrawal (Firebase-backed provider): look the request up in the
cached list and return silently when absent; update the request document
with the new status, processedAt, processedBy and rejectionReason; when
approved, additionally clamp-deduct the amount from the user winningCredits
(when the user document exists) and append the WITHDRAWAL transaction. -/
def processWithdrawal (now : Nat) (adminId : Option String) (db : DB) (requestId : String)
    (approved : Bool) (reason : Option String) : DB :=
  match db.withdrawals.find? (fun r => r.id == requestId) with
  | none => db
  | some request =>
    let db1 := { db with withdrawals := db.withdrawals.map (fun r =>
        if r.id == requestId then
          { r with
            status := if approved then .APPROVED else .REJECTED,
            processedAt := some now,
            processedBy := orNull adminId,
            rejectionReason := orNull reason }
        else r) }
    if approved then
      let db2 := match getUserDoc db1 request.oderId with
        | some u => updateUserCredits db1 request.oderId
            (max 0 (u.winningCredits - request.amount)) now
        | none => db1
      addTransaction db2
        { userId := request.oderId, type := .WITHDRAWAL, amount := -request.amount,
          description := "Withdrawal to UPI: " ++ request.upiId, referenceId := requestId,
          createdAt := now }
    else db1

/-- C9: approving a withdrawal sets the user balance to
max 0 (winningCredits - amount), which is never negative and is exactly 0
whenever the approved amount exceeds the balance, while the recorded
WITHDRAWAL transaction still carries the full negative amount. -/
theorem creditsOf_addTransaction (db : DB) (t : TransactionDoc) (uid : String) :
    creditsOf (addTransaction db t) uid = creditsOf db uid := rfl

theorem transactions_addTransaction (db : DB) (t : TransactionDoc) :
    (addTransaction db t).transactions = db.transactions ++ [t] := rfl

theorem transactions_updateUserCredits (db : DB) (uid : String) (c : Int) (now : Nat) :
    (updateUserCredits db uid c now).transactions = db.transactions := rfl

theorem processWithdrawal_approved_clamps (now : Nat) (adminId : Option String) (db : DB)
    (requestId : String) (reason : Option String) (request : WithdrawalDoc) (u : User)
    (hreq : db.withdrawals.find? (fun r => r.id == requestId) = some request)
    (hu : getUserDoc db request.oderId = some u) :
    creditsOf (processWithdrawal now adminId db requestId true reason) request.oderId
      = some (max 0 (u.winningCredits - request.amount)) ∧
    (0 : Int) ≤ max 0 (u.winningCredits - request.amount) ∧
    (u.winningCredits < request.amount → max 0 (u.winningCredits - request.amount) = 0) ∧
    (processWithdrawal now adminId db requestId true reason).transactions
      = db.transactions ++
        [{ userId := request.oderId, type := .WITHDRAWAL, amount := -request.amount,
           description := "Withdrawal to UPI: " ++ request.upiId, referenceId := requestId,
           createdAt := now }] := by
  unfold processWithdrawal
  rw [hreq]
  simp only [eq_self_iff_true, if_true]
  generalize hg : ({ db with withdrawals := db.withdrawals.map (fun r =>
      if r.id == requestId then
        { r with
          status := WithdrawalStatus.APPROVED,
          processedAt := some now,
          processedBy := orNull adminId,
          rejectionReason := orNull reason }
      else r) } : DB) = db1
  have hu1 : getUserDoc db1 request.oderId = some u := by
    rw [← hg]
    exact hu
  have hc1 : creditsOf db1 request.oderId = some u.winningCredits := by
    unfold creditsOf
    rw [hu1]
    rfl
  have ht1 : db1.transactions = db.transactions := by
    rw [← hg]
  rw [hu1]
  refine ⟨?_, le_max_left 0 _, fun h => max_eq_left (by omega), ?_⟩
  · rw [creditsOf_addTransaction, creditsOf_updateUserCredits, if_pos rfl, hc1]
    rfl
  · rw [transactions_addTransaction, transactions_updateUserCredits, ht1]

/-- C10: rejecting a withdrawal only touches the request document: the
status becomes REJECTED and the processing metadata is filled in, while the
users, the transaction ledger and every withdrawal request with a different
id are left unchanged. -/
theorem processWithdrawal_reject_frame (now : Nat) (adminId : Option String) (db : DB)
    (requestId : String) (reason : Option String) (request : WithdrawalDoc)
    (hreq : db.withdrawals.find? (fun r => r.id == requestId) = some request) :
    processWithdrawal now adminId db requestId false reason =
      { db with withdrawals := db.withdrawals.map (fun r =>
          if r.id == requestId then
            { r with
              status := .REJECTED,
              processedAt := some now,
              processedBy := orNull adminId,
              rejectionReason := orNull reason }
          else r) } ∧
    (processWithdrawal now adminId db requestId false reason).users = db.users ∧
    (processWithdrawal now adminId db requestId false reason).transactions
      = db.transactions ∧
    ∀ r ∈ db.withdrawals, r.id ≠ requestId →
      r ∈ (processWithdrawal now adminId db requestId false reason).withdrawals := by
  have hrun : processWithdrawal now adminId db requestId false reason =
      { db with withdrawals := db.withdrawals.map (fun r =>
          if r.id == requestId then
            { r with
              status := .REJECTED,
              processedAt := some now,
              processedBy := orNull adminId,
              rejectionReason := orNull reason }
          else r) } := by
    unfold processWithdrawal
    rw [hreq]
    dsimp only
    simp only [show (false = true) = False from by simp, if_false]
  refine ⟨hrun, by rw [hrun], by rw [hrun], ?_⟩
  intro r hr hne
  rw [hrun]
  refine List.mem_map.mpr ⟨r, hr, ?_⟩
  rw [if_neg (by simpa using hne)]

/-- A pending withdrawal request over more credits than the sample user has. -/
def sampleWithdrawal : WithdrawalDoc :=
  { id := "wd_0", oderId := "u1", amount := 100, status := .PENDING, upiId := "p@upi",
    createdAt := 0, processedAt := none, processedBy := none, rejectionReason := none }

/-- The sample store extended with the pending withdrawal request. -/
def sampleDBW : DB :=
  { sampleDB with withdrawals := [sampleWithdrawal], nextWithdrawalId := 1 }

/-- Witness for C9: approving the 100-credit request of a user holding 7
credits clamps the balance to 0 while recording a -100 transaction. -/
theorem processWithdrawal_approved_clamps_witness :
    sampleDBW.withdrawals.find? (fun r => r.id == "wd_0") = some sampleWithdrawal ∧
    getUserDoc sampleDBW sampleWithdrawal.oderId = some sampleUser ∧
    (creditsOf (processWithdrawal 0 (some "admin") sampleDBW "wd_0" true none)
        sampleWithdrawal.oderId
      = some (max 0 (sampleUser.winningCredits - sampleWithdrawal.amount)) ∧
    (0 : Int) ≤ max 0 (sampleUser.winningCredits - sampleWithdrawal.amount) ∧
    (sampleUser.winningCredits < sampleWithdrawal.amount →
      max 0 (sampleUser.winningCredits - sampleWithdrawal.amount) = 0) ∧
    (processWithdrawal 0 (some "admin") sampleDBW "wd_0" true none).transactions
      = sampleDBW.transactions ++
        [{ userId := sampleWithdrawal.oderId, type := .WITHDRAWAL,
           amount := -sampleWithdrawal.amount,
           description := "Withdrawal to UPI: " ++ sampleWithdrawal.upiId,
           referenceId := "wd_0", createdAt := 0 }]) :=
  ⟨by decide, by decide,
    processWithdrawal_approved_clamps 0 (some "admin") sampleDBW "wd_0" none
      sampleWithdrawal sampleUser (by decide) (by decide)⟩

/-- Witness for C10: rejecting the pending sample request touches only that
request document. -/
theorem processWithdrawal_reject_frame_witness :
    sampleDBW.withdrawals.find? (fun r => r.id == "wd_0") = some sampleWithdrawal ∧
    (processWithdrawal 0 (some "admin") sampleDBW "wd_0" false (some "fraud") =
      { sampleDBW with withdrawals := sampleDBW.withdrawals.map (fun r =>
          if r.id == "wd_0" then
            { r with
              status := .REJECTED,
              processedAt := some 0,
              processedBy := orNull (some "admin"),
              rejectionReason := orNull (some "fraud") }
          else r) } ∧
    (processWithdrawal 0 (some "admin") sampleDBW "wd_0" false (some "fraud")).users
      = sampleDBW.users ∧
    (processWithdrawal 0 (some "admin") sampleDBW "wd_0" false (some "fraud")).transactions
      = sampleDBW.transactions ∧
    ∀ r ∈ sampleDBW.withdrawals, r.id ≠ "wd_0" →
      r ∈ (processWithdrawal 0 (some "admin") sampleDBW "wd_0" false
            (some "fraud")).withdrawals) :=
  ⟨by decide,
    processWithdrawal_reject_frame 0 (some "admin") sampleDBW "wd_0" (some "fraud")
      sampleWithdrawal (by decide)⟩

/-!
localStorage persistence (parseDates / loadFromStorage / saveToStorage).

JSON.stringify serialises a Date as its ISO string
YYYY-MM-DDTHH:MM:SS.mmmZ; JSON.parse reproduces the JSON tree of the
serialised text, so the stored text is modelled by the JSON tree itself.
parseDates walks the parsed tree and replaces every string matching the
prefix pattern of four digits, dash, two digits, dash, two digits, T, two
digits, colon, two digits with new Date(string).  A Date is modelled by its
broken-down UTC components; new Date(s) is modelled as recovering the
components from a full canonical ISO string and as the invalid date
otherwise (the leniency of the engine parser on non-canonical strings does
not affect the properties below, which only apply it to canonical strings
or compare its result against a plain string). -/

/-- Broken-down UTC date as rendered by toISOString. -/
structure DateV where
  year : Nat
  month : Nat
  day : Nat
  hour : Nat
  minute : Nat
  second : Nat
  ms : Nat
  deriving DecidableEq, Repr

/-- Component bounds under which toISOString renders with the standard
field widths (every real Date satisfies them). -/
def DateV.valid (d : DateV) : Prop :=
  d.year < 10000 ∧ d.month < 100 ∧ d.day < 100 ∧ d.hour < 100 ∧ d.minute < 100 ∧
  d.second < 100 ∧ d.ms < 1000

instance (d : DateV) : Decidable d.valid := by
  unfold DateV.valid
  infer_instance

/-- The decimal digit of n at weight k, as a character. -/
def digitAt (n k : Nat) : Char := Char.ofNat (48 + n / k % 10)

/-- Numeric value of a digit character. -/
def digitVal (c : Char) : Nat := c.toNat - 48

/-- The character list of toISOString. -/
def isoChars (d : DateV) : List Char :=
  [digitAt d.year 1000, digitAt d.year 100, digitAt d.year 10, digitAt d.year 1, '-',
   digitAt d.month 10, digitAt d.month 1, '-',
   digitAt d.day 10, digitAt d.day 1, 'T',
   digitAt d.hour 10, digitAt d.hour 1, ':',
   digitAt d.minute 10, digitAt d.minute 1, ':',
   digitAt d.second 10, digitAt d.second 1, '.',
   digitAt d.ms 100, digitAt d.ms 10, digitAt d.ms 1, 'Z']

/-- Date.prototype.toISOString. -/
def toISOString (d : DateV) : String := String.mk (isoChars d)

/-- Recover the date components from a full canonical ISO character list. -/
def parseIsoChars : List Char → Option DateV
  | [y3, y2, y1, y0, c1, m1, m0, c2, d1, d0, c3, h1, h0, c4, i1, i0, c5, s1, s0, c6,
     x2, x1, x0, c7] =>
    if c1 = '-' ∧ c2 = '-' ∧ c3 = 'T' ∧ c4 = ':' ∧ c5 = ':' ∧ c6 = '.' ∧ c7 = 'Z' ∧
       y3.isDigit ∧ y2.isDigit ∧ y1.isDigit ∧ y0.isDigit ∧ m1.isDigit ∧ m0.isDigit ∧
       d1.isDigit ∧ d0.isDigit ∧ h1.isDigit ∧ h0.isDigit ∧ i1.isDigit ∧ i0.isDigit ∧
       s1.isDigit ∧ s0.isDigit ∧ x2.isDigit ∧ x1.isDigit ∧ x0.isDigit then
      some { year := 1000 * digitVal y3 + 100 * digitVal y2 + 10 * digitVal y1 + digitVal y0,
             month := 10 * digitVal m1 + digitVal m0,
             day := 10 * digitVal d1 + digitVal d0,
             hour := 10 * digitVal h1 + digitVal h0,
             minute := 10 * digitVal i1 + digitVal i0,
             second := 10 * digitVal s1 + digitVal s0,
             ms := 100 * digitVal x2 + 10 * digitVal x1 + digitVal x0 }
    else none
  | _ => none

/-- new Date(s): the components when s is a canonical ISO string, otherwise
the invalid date (modelled as none). -/
def jsDateOf (s : String) : Option DateV := parseIsoChars s.data

/-- The regular expression test of parseDates on a character list: four
digits, dash, two digits, dash, two digits, T, two digits, colon, two
digits, anchored at the start only. -/
def datePatternChars : List Char → Bool
  | y3 :: y2 :: y1 :: y0 :: c1 :: m1 :: m0 :: c2 :: d1 :: d0 :: c3 :: h1 :: h0 :: c4 ::
      i1 :: i0 :: _ =>
    c1 == '-' && c2 == '-' && c3 == 'T' && c4 == ':' &&
    y3.isDigit && y2.isDigit && y1.isDigit && y0.isDigit && m1.isDigit && m0.isDigit &&
    d1.isDigit && d0.isDigit && h1.isDigit && h0.isDigit && i1.isDigit && i0.isDigit
  | _ => false

/-- The regular expression test of parseDates on a string. -/
def datePatternTest (s : String) : Bool := datePatternChars s.data

/-- A parsed JSON tree, as produced by JSON.parse. -/
inductive JValue where
  | jnull
  | jbool (b : Bool)
  | jnum (n : Int)
  | jstr (s : String)
  | jarr (items : List JValue)
  | jobj (fields : List (String × JValue))

/-- An application value held in the provider state: JSON data plus Date
objects (valid or invalid). -/
inductive SValue where
  | snull
  | sbool (b : Bool)
  | snum (n : Int)
  | sstr (s : String)
  | sdate (d : DateV)
  | sinvalidDate
  | sarr (items : List SValue)
  | sobj (fields : List (String × SValue))

mutual

/-- JSON.stringify on an application value, as a JSON tree: a valid Date
serialises to its ISO string, an invalid Date to null. -/
def jsonOfValue : SValue → JValue
  | .snull => .jnull
  | .sbool b => .jbool b
  | .snum n => .jnum n
  | .sstr s => .jstr s
  | .sdate d => .jstr (toISOString d)
  | .sinvalidDate => .jnull
  | .sarr items => .jarr (jsonOfList items)
  | .sobj fields => .jobj (jsonOfFields fields)

def jsonOfList : List SValue → List JValue
  | [] => []
  | v :: vs => jsonOfValue v :: jsonOfList vs

def jsonOfFields : List (String × SValue) → List (String × JValue)
  | [] => []
  | (k, v) :: fs => (k, jsonOfValue v) :: jsonOfFields fs

end

mutual

/-- parseDates: recursively walk the parsed JSON, turning every string that
matches the date prefix pattern into new Date(string), mapping arrays
elementwise and objects fieldwise, and returning every other value as is. -/
def parseDates : JValue → SValue
  | .jnull => .snull
  | .jbool b => .sbool b
  | .jnum n => .snum n
  | .jstr s =>
    if datePatternTest s then
      match jsDateOf s with
      | some d => .sdate d
      | none => .sinvalidDate
    else .sstr s
  | .jarr items => .sarr (parseDatesList items)
  | .jobj fields => .sobj (parseDatesFields fields)

def parseDatesList : List JValue → List SValue
  | [] => []
  | v :: vs => parseDates v :: parseDatesList vs

def parseDatesFields : List (String × JValue) → List (String × SValue)
  | [] => []
  | (k, v) :: fs => (k, parseDates v) :: parseDatesFields fs

end

/-- Browser localStorage: a list of key / stored-tree pairs; setItem
prepends and getItem takes the first match. -/
abbrev Storage := List (String × JValue)

/-- saveToStorage: localStorage.setItem(key, JSON.stringify(data)). -/
def saveToStorage (key : String) (data : SValue) (storage : Storage) : Storage :=
  (key, jsonOfValue data) :: storage

/-- loadFromStorage: parseDates(JSON.parse(localStorage.getItem(key))) when
the key is present, the default value otherwise. -/
def loadFromStorage (key : String) (defaultValue : SValue) (storage : Storage) : SValue :=
  match List.find? (fun kv => kv.1 == key) storage with
  | some kv => parseDates kv.2
  | none => defaultValue

mutual

/-- Values on which the storage round trip is the identity: no invalid
Date, every Date within the rendering bounds, and no plain string matching
the date prefix pattern. -/
def goodValue : SValue → Bool
  | .snull => true
  | .sbool _ => true
  | .snum _ => true
  | .sstr s => !datePatternTest s
  | .sdate d => decide d.valid
  | .sinvalidDate => false
  | .sarr items => goodList items
  | .sobj fields => goodFields fields

def goodList : List SValue → Bool
  | [] => true
  | v :: vs => goodValue v && goodList vs

def goodFields : List (String × SValue) → Bool
  | [] => true
  | kv :: fs => goodValue kv.2 && goodFields fs

end

theorem isDigit_digitAt (n k : Nat) : (digitAt n k).isDigit = true := by
  unfold digitAt
  have h : n / k % 10 < 10 := Nat.mod_lt _ (by norm_num)
  interval_cases h : n / k % 10 <;> decide

theorem digitVal_digitAt (n k : Nat) : digitVal (digitAt n k) = n / k % 10 := by
  unfold digitAt digitVal
  have h : n / k % 10 < 10 := Nat.mod_lt _ (by norm_num)
  interval_cases h : n / k % 10 <;> decide

theorem datePatternTest_toISOString (d : DateV) :
    datePatternTest (toISOString d) = true := by
  unfold datePatternTest toISOString
  rw [show (String.mk (isoChars d)).data = isoChars d from rfl]
  unfold isoChars datePatternChars
  simp [isDigit_digitAt]

theorem parseIsoChars_isoChars (d : DateV) (h : d.valid) :
    parseIsoChars (isoChars d) = some d := by
  obtain ⟨Y, Mo, Dy, H, Mi, Se, Ms⟩ := d
  unfold DateV.valid at h
  dsimp only at h
  obtain ⟨h1, h2, h3, h4, h5, h6, h7⟩ := h
  unfold isoChars parseIsoChars
  dsimp only
  rw [if_pos]
  · simp only [Option.some.injEq, DateV.mk.injEq, digitVal_digitAt]
    refine ⟨?_, ?_, ?_, ?_, ?_, ?_, ?_⟩ <;> omega
  · refine ⟨rfl, rfl, rfl, rfl, rfl, rfl, rfl, ?_, ?_, ?_, ?_, ?_, ?_, ?_, ?_, ?_, ?_,
      ?_, ?_, ?_, ?_, ?_, ?_, ?_⟩ <;> exact isDigit_digitAt _ _

theorem jsDateOf_toISOString (d : DateV) (h : d.valid) :
    jsDateOf (toISOString d) = some d := by
  unfold jsDateOf toISOString
  rw [show (String.mk (isoChars d)).data = isoChars d from rfl]
  exact parseIsoChars_isoChars d h

mutual

theorem parseDates_jsonOfValue : ∀ (v : SValue), goodValue v = true →
    parseDates (jsonOfValue v) = v
  | .snull, _ => rfl
  | .sbool b, _ => rfl
  | .snum n, _ => rfl
  | .sstr s, h => by
    have hs : datePatternTest s = false := by
      rw [goodValue] at h
      simpa using h
    rw [jsonOfValue, parseDates, hs]
    simp
  | .sdate d, h => by
    have hv : d.valid := by
      rw [goodValue] at h
      exact of_decide_eq_true h
    rw [jsonOfValue, parseDates, datePatternTest_toISOString d]
    simp [jsDateOf_toISOString d hv]
  | .sinvalidDate, h => by
    rw [goodValue] at h
    exact absurd h (by simp)
  | .sarr items, h => by
    have hh := parseDates_jsonOfList items (by rw [goodValue] at h; exact h)
    rw [jsonOfValue, parseDates, hh]
  | .sobj fields, h => by
    have hh := parseDates_jsonOfFields fields (by rw [goodValue] at h; exact h)
    rw [jsonOfValue, parseDates, hh]

theorem parseDates_jsonOfList : ∀ (items : List SValue), goodList items = true →
    parseDatesList (jsonOfList items) = items
  | [], _ => rfl
  | v :: vs, h => by
    rw [goodList, Bool.and_eq_true] at h
    rw [jsonOfList, parseDatesList, parseDates_jsonOfValue v h.1,
      parseDates_jsonOfList vs h.2]

theorem parseDates_jsonOfFields : ∀ (fields : List (String × SValue)),
    goodFields fields = true → parseDatesFields (jsonOfFields fields) = fields
  | [], _ => rfl
  | (k, v) :: fs, h => by
    rw [goodFields, Bool.and_eq_true] at h
    rw [jsonOfFields, parseDatesFields, parseDates_jsonOfValue v h.1,
      parseDates_jsonOfFields fs h.2]

end

/-- C8 counterexample: the round trip is not the identity on every record
collection.  A record whose upiId field is the plain string 2025-01-01T00:00
matches the date prefix pattern of parseDates, so the reloaded collection
carries a Date where the stored one carried a string.  (In the model the
non-canonical string parses to the invalid date; an engine that parses it
leniently to a valid Date still returns a Date, not the stored string.) -/
theorem storage_roundTrip_counterexample :
    loadFromStorage ("battlearena_withdrawals") .snull
        (saveToStorage ("battlearena_withdrawals")
          (.sarr [.sobj [("upiId", .sstr ("2025-01-01T00:00"))]]) [])
      ≠ .sarr [.sobj [("upiId", .sstr ("2025-01-01T00:00"))]] := by
  intro h
  have heval : loadFromStorage ("battlearena_withdrawals") .snull
      (saveToStorage ("battlearena_withdrawals")
        (.sarr [.sobj [("upiId", .sstr ("2025-01-01T00:00"))]]) [])
    = .sarr [.sobj [("upiId", .sinvalidDate)]] := rfl
  rw [heval] at h
  simp at h

/-- C8 (amended): loadFromStorage after saveToStorage on the same key
returns the stored value, with every Date restored to an equal Date by
parseDates and all other fields unchanged, provided no plain string field of
the stored value matches the date prefix pattern (a matching string field is
instead turned into a Date, as the counterexample shows). -/
theorem storage_roundTrip (key : String) (defaultValue v : SValue) (storage : Storage)
    (h : goodValue v = true) :
    loadFromStorage key defaultValue (saveToStorage key v storage) = v := by
  unfold loadFromStorage saveToStorage
  rw [show List.find? (fun kv => kv.1 == key) ((key, jsonOfValue v) :: storage)
      = some (key, jsonOfValue v) from List.find?_cons_of_pos _ (by simp)]
  exact parseDates_jsonOfValue v h

/-- A stored record collection mirroring a withdrawals collection entry:
an amount, a creation Date and a UPI id string. -/
def sampleStoredValue : SValue :=
  .sarr [.sobj [("amount", .snum 100),
                ("createdAt", .sdate { year := 2025, month := 1, day := 15, hour := 10,
                                       minute := 30, second := 0, ms := 0 }),
                ("upiId", .sstr ("p@upi"))]]

/-- Witness for the amended C8 at a concrete collection holding a Date. -/
theorem storage_roundTrip_witness :
    goodValue sampleStoredValue = true ∧
    loadFromStorage ("battlearena_withdrawals") .snull
        (saveToStorage ("battlearena_withdrawals") sampleStoredValue [])
      = sampleStoredValue :=
  ⟨by decide,
    storage_roundTrip ("battlearena_withdrawals") .snull sampleStoredValue [] (by decide)⟩

end BattleArena
